import Mathlib

/-!
Verification of the Tailwind-class formatting core of
`crates/oxc_formatter/src/utils/tailwindcss.rs` (and its near-duplicate
`tailwindicss.rs`), as a shallow embedding: strings are `List Char`,
byte/char indices are `Nat` positions (every index the code slices at is
the position of an ASCII-whitespace character, hence a one-byte char and a
valid character boundary), the formatter's output buffer is a list of
`FormatElement` tokens, and the per-pass class registry is the list of
registered strings in registration order.
-/

/-- Rust `char::is_ascii_whitespace`: space, horizontal tab, line feed,
form feed, carriage return. -/
def isAsciiWhitespace (c : Char) : Bool :=
  c == ' ' || c == '\t' || c == '\n' || c == '\x0C' || c == '\r'

/-- Rust `char::is_whitespace` (Unicode `White_Space` property), used by
`str::trim`. -/
def isRustWhitespace (c : Char) : Bool :=
  isAsciiWhitespace c || c == '\x0B' || c == '\u0085' || c == '\u00A0' ||
  c == '\u1680' || (0x2000 ≤ c.toNat && c.toNat ≤ 0x200A) || c == '\u2028' ||
  c == '\u2029' || c == '\u202F' || c == '\u205F' || c == '\u3000'

/-- `content.starts_with(|c| c.is_ascii_whitespace())`. -/
def startsWithWs : List Char → Bool
  | [] => false
  | c :: _ => isAsciiWhitespace c

/-- `content.ends_with(|c| c.is_ascii_whitespace())`. -/
def endsWithWs (l : List Char) : Bool :=
  match l.getLast? with
  | none => false
  | some c => isAsciiWhitespace c

/-- `content.find(|c| c.is_ascii_whitespace())`: position of the first
ASCII-whitespace character. -/
def findWs : List Char → Option Nat
  | [] => none
  | c :: rest =>
    if isAsciiWhitespace c then some 0 else (findWs rest).map (· + 1)

/-- `content.rfind(|c| c.is_ascii_whitespace())`: position of the last
ASCII-whitespace character. -/
def rfindWs : List Char → Option Nat
  | [] => none
  | c :: rest =>
    match rfindWs rest with
    | some i => some (i + 1)
    | none => if isAsciiWhitespace c then some 0 else none

/-- Rust `str::trim`: drop the maximal leading and trailing runs of
Unicode whitespace. -/
def trimRust (l : List Char) : List Char :=
  ((l.dropWhile isRustWhitespace).reverse.dropWhile isRustWhitespace).reverse

/-- One token of the formatter's output buffer: verbatim text or a
registered sortable-class placeholder (`FormatElement::TailwindClass`). -/
inductive FormatElement where
  | text (s : List Char)
  | tailwindClass (idx : Nat)
deriving DecidableEq, Repr

/-- `f.context_mut().add_tailwind_class(s)`: append to the per-pass class
registry and return the new entry's index. -/
def addTailwindClass (reg : List (List Char)) (s : List Char) :
    List (List Char) × Nat :=
  (reg ++ [s], reg.length)

/-- Resolve one output token against the final registry, with no external
reordering applied (a class placeholder renders as the registered text). -/
def renderElement (reg : List (List Char)) : FormatElement → List Char
  | FormatElement.text s => s
  | FormatElement.tailwindClass i => reg.getD i []

/-- Render a token stream to text, with no external reordering applied. -/
def render (reg : List (List Char)) : List FormatElement → List Char
  | [] => []
  | e :: rest => renderElement reg e ++ render reg rest

/-- JSX attribute name: an identifier or a namespaced name. -/
inductive JSXAttributeName where
  | identifier (name : String)
  | namespacedName (ns name : String)
deriving DecidableEq

/-- Callee expression shapes relevant to the classifier: a bare
identifier, a member access, or any other expression form. -/
inductive Expression where
  | identifier (name : String)
  | memberAccess (obj prop : String)
  | otherExpression
deriving DecidableEq

/-- The configuration surface consumed by the classifier. -/
structure TailwindcssOptions where
  tailwind_attributes : Option (List String)
  tailwind_functions : Option (List String)
deriving DecidableEq

/-- `is_tailwind_jsx_attribute` from `tailwindcss.rs` (lines 11-32). -/
def is_tailwind_jsx_attribute (attrName : JSXAttributeName)
    (tailwindOptions : TailwindcssOptions) : Bool :=
  match attrName with
  | JSXAttributeName.namespacedName _ _ => false
  | JSXAttributeName.identifier name =>
    if name == "class" || name == "className" then
      true
    else
      match tailwindOptions.tailwind_attributes with
      | none => false
      | some attrs => attrs.any (fun a => a == name)

/-- `is_tailwind_function_call` from `tailwindcss.rs` (lines 35-48). -/
def is_tailwind_function_call (callee : Expression)
    (tailwindOptions : TailwindcssOptions) : Bool :=
  match tailwindOptions.tailwind_functions with
  | none => false
  | some functions =>
    match callee with
    | Expression.identifier name => functions.any (fun g => g == name)
    | _ => false

namespace Tailwindicss

/-- `is_tailwind_jsx_attribute` from the duplicate `tailwindicss.rs`
(lines 6-27). -/
def is_tailwind_jsx_attribute (attrName : JSXAttributeName)
    (tailwindOptions : TailwindcssOptions) : Bool :=
  match attrName with
  | JSXAttributeName.namespacedName _ _ => false
  | JSXAttributeName.identifier name =>
    if name == "class" || name == "className" then
      true
    else
      match tailwindOptions.tailwind_attributes with
      | none => false
      | some attrs => attrs.any (fun a => a == name)

/-- `is_tailwind_function_call` from the duplicate `tailwindicss.rs`
(lines 30-43). -/
def is_tailwind_function_call (callee : Expression)
    (tailwindOptions : TailwindcssOptions) : Bool :=
  match tailwindOptions.tailwind_functions with
  | none => false
  | some functions =>
    match callee with
    | Expression.identifier name => functions.any (fun g => g == name)
    | _ => false

end Tailwindicss

/-- Source span of a template element, as (start, end). -/
abbrev Span := Nat × Nat

/-- The structural parent of a template element: a template literal or a
TS template-literal type, each carrying the spans of its quasis, in order,
and the length of its interleaved expression/type list; or any other node. -/
inductive AstParent where
  | templateLiteral (quasis : List Span) (expressionsCount : Nat)
  | tsTemplateLiteralType (quasis : List Span) (typesCount : Nat)
  | otherParent
deriving DecidableEq

/-- `quasis.iter().position(|q| q.span == element.span)`. -/
def positionOf (quasis : List Span) (span : Span) : Option Nat :=
  match quasis with
  | [] => none
  | q :: rest => if q = span then some 0 else (positionOf rest span).map (· + 1)

/-- `get_template_position` from `tailwindcss.rs` (lines 168-183). -/
def get_template_position (parent : AstParent) (span : Span) :
    Option (Nat × Nat) :=
  match parent with
  | AstParent.templateLiteral quasis cnt =>
    some ((positionOf quasis span).getD 0, cnt)
  | AstParent.tsTemplateLiteralType quasis cnt =>
    some ((positionOf quasis span).getD 0, cnt)
  | AstParent.otherParent => none

/-- Line 71 of `tailwindcss.rs`:
`get_template_position(element).unwrap_or((0, 0))`. -/
def getTemplatePositionOr (parent : AstParent) (span : Span) : Nat × Nat :=
  (get_template_position parent span).getD (0, 0)

/-- Lines 84-89 of `write_tailwind_template_element`: the
`match (first_ws, last_ws)` that slices the fragment into
(prefix-region, sortable-region, suffix-region). Slice indices are char
positions; `content[i..=j]` is `(content.drop i).take (j + 1 - i)`. -/
def splitRegions (content : List Char) (firstWs lastWs : Option Nat) :
    List Char × List Char × List Char :=
  match firstWs, lastWs with
  | some i, some j =>
    if i < j then
      (content.take i, (content.drop i).take (j + 1 - i), content.drop (j + 1))
    else
      (content.take i, content.drop i, [])
  | some i, none => (content.take i, content.drop i, [])
  | none, some j => ([], content.take (j + 1), content.drop (j + 1))
  | none, none => ([], content, [])

/-- Lines 72-89 of `write_tailwind_template_element`: compute
(prefix-region, sortable-region, suffix-region) of a fragment from its
positional context. -/
def splitBoundaries (content : List Char) (position exprCount : Nat) :
    List Char × List Char × List Char :=
  let isFirstQuasi : Bool := position == 0
  let isLastQuasi : Bool := decide (exprCount ≤ position)
  let ignoreFirst : Bool := !isFirstQuasi && !startsWithWs content
  let ignoreLast : Bool := !isLastQuasi && !endsWithWs content
  let firstWs : Option Nat := if ignoreFirst then findWs content else none
  let lastWs : Option Nat := if ignoreLast then rfindWs content else none
  splitRegions content firstWs lastWs

/-- `write_tailwind_template_element` from `tailwindcss.rs` (lines 58-125),
acting on the class registry and producing the emitted token sequence. -/
def write_tailwind_template_element (content : List Char)
    (preserveWhitespace : Bool) (position exprCount : Nat)
    (reg : List (List Char)) : List (List Char) × List FormatElement :=
  if preserveWhitespace then
    ((addTailwindClass reg content).1,
      [FormatElement.tailwindClass (addTailwindClass reg content).2])
  else
    let isFirstQuasi : Bool := position == 0
    let isLastQuasi : Bool := decide (exprCount ≤ position)
    let s := splitBoundaries content position exprCount
    let hasPre : Bool := !s.1.isEmpty
    let hasSuf : Bool := !s.2.2.isEmpty
    let out1 : List FormatElement :=
      if hasPre then [FormatElement.text s.1] else []
    let trimmed := trimRust s.2.1
    let regOut : List (List Char) × List FormatElement :=
      if trimmed.isEmpty then
        (reg,
          if !s.2.1.isEmpty then [FormatElement.text [' ']] else [])
      else
        ((addTailwindClass reg trimmed).1,
          (if !isFirstQuasi || hasPre then [FormatElement.text [' ']] else []) ++
          [FormatElement.tailwindClass (addTailwindClass reg trimmed).2] ++
          (if !isLastQuasi || hasSuf then [FormatElement.text [' ']] else []))
    let out3 : List FormatElement :=
      if hasSuf then [FormatElement.text s.2.2] else []
    (regOut.1, out1 ++ regOut.2 ++ out3)

/-- `write_tailwind_string_literal` from `tailwindcss.rs` (lines 127-165).
`isDirectChild` is `matches!(string_literal.parent, AstNodes::JSXAttribute(_))`.
Note the trailing run is collected from the reversed character iterator,
exactly as `content.chars().rev().take_while(..).collect()` does. -/
def write_tailwind_string_literal (content : List Char)
    (isDirectChild : Bool) (reg : List (List Char)) :
    List (List Char) × List FormatElement :=
  if isDirectChild then
    ((addTailwindClass reg content).1,
      [FormatElement.tailwindClass (addTailwindClass reg content).2])
  else
    let leadingWs := content.takeWhile isAsciiWhitespace
    let trailingWs := content.reverse.takeWhile isAsciiWhitespace
    let trimmed := trimRust content
    let out1 : List FormatElement :=
      if !leadingWs.isEmpty then [FormatElement.text leadingWs] else []
    let regOut : List (List Char) × List FormatElement :=
      if !trimmed.isEmpty then
        ((addTailwindClass reg trimmed).1,
          [FormatElement.tailwindClass (addTailwindClass reg trimmed).2])
      else
        (reg, [])
    let out3 : List FormatElement :=
      if !trailingWs.isEmpty then [FormatElement.text trailingWs] else []
    (regOut.1, out1 ++ regOut.2 ++ out3)

/-! ### Helper lemmas -/

lemma splitRegions_partition (content : List Char) (fw lw : Option Nat) :
    (splitRegions content fw lw).1 ++ (splitRegions content fw lw).2.1 ++
      (splitRegions content fw lw).2.2 = content := by
  rcases fw with _ | i
  · rcases lw with _ | j
    · simp [splitRegions]
    · simp [splitRegions]
  · rcases lw with _ | j
    · simp [splitRegions]
    · by_cases hij : i < j
      · simp only [splitRegions, if_pos hij]
        have hd : (content.drop i).drop (j + 1 - i) = content.drop (j + 1) := by
          rw [List.drop_drop]
          congr 1
          omega
        rw [List.append_assoc, ← hd, List.take_append_drop, List.take_append_drop]
      · simp [splitRegions, if_neg hij]

lemma splitBoundaries_partition (content : List Char) (position exprCount : Nat) :
    (splitBoundaries content position exprCount).1 ++
      (splitBoundaries content position exprCount).2.1 ++
      (splitBoundaries content position exprCount).2.2 = content := by
  simp only [splitBoundaries]
  exact splitRegions_partition content _ _

lemma splitRegions_fst_of_none (content : List Char) (lw : Option Nat) :
    (splitRegions content none lw).1 = [] := by
  cases lw <;> simp [splitRegions]

lemma splitRegions_suf_of_none (content : List Char) (fw : Option Nat) :
    (splitRegions content fw none).2.2 = [] := by
  cases fw <;> simp [splitRegions]

lemma findWs_spec (l : List Char) :
    ∀ i : Nat, findWs l = some i →
      i < l.length ∧ isAsciiWhitespace (l.getD i 'A') = true := by
  induction l with
  | nil => intro i h; simp [findWs] at h
  | cons c rest ih =>
    intro i h
    by_cases hc : isAsciiWhitespace c
    · simp only [findWs, if_pos hc, Option.some.injEq] at h
      subst h
      simpa using hc
    · simp only [findWs, if_neg hc, Option.map_eq_some'] at h
      obtain ⟨j, hj, rfl⟩ := h
      obtain ⟨h1, h2⟩ := ih j hj
      refine ⟨by simpa using Nat.succ_lt_succ h1, ?_⟩
      simpa using h2

lemma rfindWs_spec (l : List Char) :
    ∀ i : Nat, rfindWs l = some i →
      i < l.length ∧ isAsciiWhitespace (l.getD i 'A') = true := by
  induction l with
  | nil => intro i h; simp [rfindWs] at h
  | cons c rest ih =>
    intro i h
    cases hr : rfindWs rest with
    | some j =>
      simp only [rfindWs, hr, Option.some.injEq] at h
      subst h
      obtain ⟨h1, h2⟩ := ih j hr
      refine ⟨by simpa using Nat.succ_lt_succ h1, ?_⟩
      simpa using h2
    | none =>
      simp only [rfindWs, hr] at h
      by_cases hc : isAsciiWhitespace c
      · rw [if_pos hc] at h
        cases h
        simpa using hc
      · rw [if_neg hc] at h
        cases h

lemma positionOf_eq_none (quasis : List Span) (span : Span)
    (h : span ∉ quasis) : positionOf quasis span = none := by
  induction quasis with
  | nil => rfl
  | cons q rest ih =>
    have hq : ¬q = span := fun he => h (he ▸ List.mem_cons_self q rest)
    have hrest : span ∉ rest := fun hm => h (List.mem_cons_of_mem q hm)
    simp [positionOf, hq, ih hrest]

lemma render_append (reg : List (List Char)) (a b : List FormatElement) :
    render reg (a ++ b) = render reg a ++ render reg b := by
  induction a with
  | nil => simp [render]
  | cons e rest ih => simp [render, ih]

lemma render_text_if (reg : List (List Char)) (l : List Char) :
    render reg (if !l.isEmpty then [FormatElement.text l] else []) = l := by
  by_cases h : l.isEmpty
  · rw [List.isEmpty_iff] at h
    simp [h, render]
  · simp [h, render, renderElement]

lemma filter_dropWhile_ws (l : List Char) :
    (l.dropWhile isRustWhitespace).filter (fun c => !isRustWhitespace c) =
      l.filter (fun c => !isRustWhitespace c) := by
  induction l with
  | nil => rfl
  | cons c rest ih =>
    by_cases hc : isRustWhitespace c
    · simp [List.dropWhile_cons, hc, ih]
    · simp [List.dropWhile_cons, hc]

lemma filter_trimRust (l : List Char) :
    (trimRust l).filter (fun c => !isRustWhitespace c) =
      l.filter (fun c => !isRustWhitespace c) := by
  unfold trimRust
  rw [List.filter_reverse, filter_dropWhile_ws, List.filter_reverse,
    filter_dropWhile_ws, List.reverse_reverse]

lemma filter_of_trim_isEmpty (l : List Char) (h : (trimRust l).isEmpty = true) :
    l.filter (fun c => !isRustWhitespace c) = [] := by
  rw [List.isEmpty_iff] at h
  rw [← filter_trimRust, h]
  rfl

lemma any_beq_iff_mem (xs : List String) (name : String) :
    xs.any (fun a => a == name) = true ↔ name ∈ xs := by
  rw [List.any_eq_true]
  constructor
  · rintro ⟨a, ha, hb⟩
    rwa [show a = name from by simpa using hb] at ha
  · intro h
    exact ⟨name, h, by simp⟩

/-! ### Claim theorems -/

/-- C1: the claim says that for fragment `"px-2"` with
`preserve_whitespace = false`, `position = 1`, `expr_count = 1`, the entire
text becomes the ignored prefix, nothing is registered, and the text is
emitted verbatim with no added space. The code instead hits the
`(None, None)` arm of the split (the prefix is empty and the whole text is
the sortable region), registers `"px-2"` in the class registry, and emits
a leading space followed by the class placeholder — contradicting the
function's own documentation that a class touching the previous expression
is preserved. This theorem evaluates the code at the failing input. -/
theorem px2_last_fragment_code_behavior :
    write_tailwind_template_element ['p', 'x', '-', '2'] false 1 1 [] =
      ([['p', 'x', '-', '2']],
        [FormatElement.text [' '], FormatElement.tailwindClass 0]) := by
  decide

/-- C2 counterexample: a template-literal parent whose quasi spans do not
contain the element's span, with one interpolated expression, resolves to
`(0, 1)`, not `(0, 0)` — the expression count is not defaulted. -/
theorem unmatched_span_position_counterexample :
    getTemplatePositionOr (AstParent.templateLiteral [(5, 6)] 1) (0, 1) ≠ (0, 0) ∧
    ((0, 1) : Span) ∉ [((5, 6) : Span)] := by
  decide

/-- C2 amended: when the parent is not a recognized template-bearing
structure, the resolved position (after `unwrap_or((0, 0))`) is `(0, 0)`;
when the parent is recognized but the span matches no quasi, only the
fragment index defaults to `0` — the result is `(0, expr_count)` with the
parent's actual expression (or type) count. -/
theorem template_position_fallbacks (span : Span) :
    getTemplatePositionOr AstParent.otherParent span = (0, 0) ∧
    (∀ quasis cnt, span ∉ quasis →
      getTemplatePositionOr (AstParent.templateLiteral quasis cnt) span =
        (0, cnt)) ∧
    (∀ quasis cnt, span ∉ quasis →
      getTemplatePositionOr (AstParent.tsTemplateLiteralType quasis cnt) span =
        (0, cnt)) := by
  refine ⟨rfl, ?_, ?_⟩ <;> intro quasis cnt h <;>
    simp [getTemplatePositionOr, get_template_position, positionOf_eq_none _ _ h]

/-- C2 amended, witness: a concrete unmatched span in a one-expression
template literal resolves to `(0, 1)`. -/
theorem template_position_fallbacks_witness :
    getTemplatePositionOr (AstParent.templateLiteral [(7, 9)] 1) (1, 2) = (0, 1) :=
  (template_position_fallbacks (1, 2)).2.1 [(7, 9)] 1 (by decide)

/-- C3: the claim says each whitespace run around a nested string literal
is reproduced character for character in its original order. The code
collects the trailing run from the reversed character iterator
(`content.chars().rev().take_while(..).collect()`), so a mixed trailing
run comes out reversed: for content `"a\t "` (trailing run tab-then-space)
the code emits the trailing text space-then-tab. This theorem evaluates
the code at the failing input. -/
theorem nested_literal_trailing_ws_reversed :
    write_tailwind_string_literal ['a', '\t', ' '] false [] =
      ([['a']], [FormatElement.tailwindClass 0,
        FormatElement.text [' ', '\t']]) := by
  decide

/-- C4: the claim says a whitespace-only nested string literal emits its
content exactly once. The code computes the leading run and the trailing
run independently; for all-whitespace content both equal the whole content
(the trailing one reversed), both are non-empty, and both are emitted — so
the whitespace is emitted twice. Nothing is registered, as claimed. This
theorem evaluates the code at the failing input `" "`. -/
theorem whitespace_only_nested_literal_doubled :
    write_tailwind_string_literal [' '] false [] =
      ([], [FormatElement.text [' '], FormatElement.text [' ']]) := by
  decide

/-- C7: `is_tailwind_jsx_attribute` returns true exactly for identifier
attribute names equal to `"class"` or `"className"` or appearing in the
configured `tailwind_attributes` list; a missing option admits no custom
name, and comparison is exact string equality. -/
theorem tailwind_attribute_classifier_correct (attrName : JSXAttributeName)
    (opts : TailwindcssOptions) :
    is_tailwind_jsx_attribute attrName opts = true ↔
      ∃ name, attrName = JSXAttributeName.identifier name ∧
        (name = "class" ∨ name = "className" ∨
          ∃ attrs, opts.tailwind_attributes = some attrs ∧ name ∈ attrs) := by
  cases attrName with
  | namespacedName x y => simp [is_tailwind_jsx_attribute]
  | identifier name =>
    by_cases hdef : name = "class" ∨ name = "className"
    · have hb : (name == "class" || name == "className") = true := by
        rcases hdef with h | h <;> simp [h]
      simp only [is_tailwind_jsx_attribute, hb, if_true, true_iff]
      exact ⟨name, rfl, by tauto⟩
    · push_neg at hdef
      have hb : (name == "class" || name == "className") = false := by
        simp [hdef.1, hdef.2]
      have hL : is_tailwind_jsx_attribute (JSXAttributeName.identifier name)
          opts =
          (match opts.tailwind_attributes with
           | none => false
           | some attrs => attrs.any (fun a => a == name)) := by
        simp [is_tailwind_jsx_attribute, hb]
      cases hopt : opts.tailwind_attributes with
      | none =>
        rw [hL, hopt]
        simp [hdef.1, hdef.2, hopt]
      | some attrs =>
        rw [hL, hopt, any_beq_iff_mem]
        constructor
        · intro h
          exact ⟨name, rfl, Or.inr (Or.inr ⟨attrs, rfl, h⟩)⟩
        · rintro ⟨name2, he, h1 | h2 | ⟨attrs0, hs, hm⟩⟩
          · injection he with he2
            subst he2
            exact absurd h1 hdef.1
          · injection he with he2
            subst he2
            exact absurd h2 hdef.2
          · injection he with he2
            subst he2
            injection hs with hs2
            rw [hs2]
            exact hm

/-- C8: `is_tailwind_function_call` returns true exactly when the callee
is a bare identifier whose name appears in the configured
`tailwind_functions` list; with the option unset it is false for every
callee, including member accesses and all other expression forms. -/
theorem tailwind_function_classifier_correct (callee : Expression)
    (opts : TailwindcssOptions) :
    is_tailwind_function_call callee opts = true ↔
      ∃ name functions, callee = Expression.identifier name ∧
        opts.tailwind_functions = some functions ∧ name ∈ functions := by
  cases hopt : opts.tailwind_functions with
  | none => cases callee <;> simp [is_tailwind_function_call, hopt]
  | some functions =>
    cases callee with
    | identifier n =>
      rw [show is_tailwind_function_call (Expression.identifier n) opts =
            functions.any (fun g => g == n) from by
          simp [is_tailwind_function_call, hopt],
        any_beq_iff_mem]
      constructor
      · intro h
        exact ⟨n, functions, rfl, rfl, h⟩
      · rintro ⟨name, fs, he, hf, hm⟩
        injection he with he2
        subst he2
        injection hf with hf2
        rw [hf2]
        exact hm
    | memberAccess a b => simp [is_tailwind_function_call, hopt]
    | otherExpression => simp [is_tailwind_function_call, hopt]

/-- C10: the classifier in `tailwindcss.rs` and its near-duplicate in
`tailwindicss.rs` are extensionally equal, for attribute names and for
callee expressions alike. -/
theorem classifier_duplicates_agree (attrName : JSXAttributeName)
    (callee : Expression) (opts : TailwindcssOptions) :
    is_tailwind_jsx_attribute attrName opts =
      Tailwindicss.is_tailwind_jsx_attribute attrName opts ∧
    is_tailwind_function_call callee opts =
      Tailwindicss.is_tailwind_function_call callee opts :=
  ⟨rfl, rfl⟩

lemma filter_render_space_if (reg : List (List Char)) (b : Bool) :
    (render reg (if b = true then [FormatElement.text [' ']] else [])).filter
      (fun c => !isRustWhitespace c) = [] := by
  cases b <;> rfl

lemma writer_render_filter (content : List Char) (position exprCount : Nat) :
    (render (write_tailwind_template_element content false position exprCount []).1
        (write_tailwind_template_element content false position exprCount []).2).filter
      (fun c => !isRustWhitespace c) =
      ((splitBoundaries content position exprCount).1).filter
          (fun c => !isRustWhitespace c) ++
        ((splitBoundaries content position exprCount).2.1).filter
          (fun c => !isRustWhitespace c) ++
        ((splitBoundaries content position exprCount).2.2).filter
          (fun c => !isRustWhitespace c) := by
  simp only [write_tailwind_template_element, Bool.false_eq_true, if_false]
  generalize hsp : splitBoundaries content position exprCount = s
  obtain ⟨pre, sor, suf⟩ := s
  by_cases htr : (trimRust sor).isEmpty = true
  · rw [if_pos htr]
    simp only [render_append, List.filter_append, render_text_if,
      filter_render_space_if]
    rw [filter_of_trim_isEmpty sor htr]
  · rw [if_neg htr]
    simp only [addTailwindClass, render_append, List.filter_append,
      render_text_if, filter_render_space_if]
    simp only [render, renderElement, List.nil_append, List.length_nil,
      List.getD_cons_zero, List.append_nil, List.filter_append]
    rw [filter_trimRust]

/-- C5 counterexample: for fragment `" a"` at `position = 0`,
`expr_count = 0`, the emitted token sequence (with no reordering applied)
renders as `"a"`, not the original `" a"` — the fragment's leading
whitespace is normalized away, so the emission does not reproduce the
original text exactly. -/
theorem emission_not_verbatim_counterexample :
    render (write_tailwind_template_element [' ', 'a'] false 0 0 []).1
        (write_tailwind_template_element [' ', 'a'] false 0 0 []).2 ≠
      [' ', 'a'] := by
  decide

/-- C5 amended: for every fragment content and every
(position, expr_count) with `preserve_whitespace = false`, the three
regions of the boundary split concatenate exactly to the original
fragment text, and the emitted token sequence — prefix verbatim, the
sortable region as a registered class with normalized boundary spaces,
suffix verbatim — preserves every non-whitespace character of the
original, in order (whitespace at the sortable region's edges is
normalized, so the full text is reproduced only up to whitespace
normalization, not always exactly). -/
theorem partition_and_normalized_emission (content : List Char)
    (position exprCount : Nat) :
    (splitBoundaries content position exprCount).1 ++
        (splitBoundaries content position exprCount).2.1 ++
        (splitBoundaries content position exprCount).2.2 = content ∧
    (render (write_tailwind_template_element content false position exprCount []).1
          (write_tailwind_template_element content false position exprCount []).2).filter
        (fun c => !isRustWhitespace c) =
      content.filter (fun c => !isRustWhitespace c) := by
  refine ⟨splitBoundaries_partition content position exprCount, ?_⟩
  rw [writer_render_filter, ← List.filter_append, ← List.filter_append,
    splitBoundaries_partition]

/-- C6: a fragment at `position = 0` never gets an
`ignore_first`-triggered prefix (the prefix region is empty), and a
fragment at `position >= expr_count` never gets an
`ignore_last`-triggered suffix (the suffix region is empty). -/
theorem first_last_boundary_respect (content : List Char)
    (position exprCount : Nat) :
    (position = 0 → (splitBoundaries content position exprCount).1 = []) ∧
    (exprCount ≤ position →
      (splitBoundaries content position exprCount).2.2 = []) := by
  constructor
  · intro h
    subst h
    simp [splitBoundaries, splitRegions_fst_of_none]
  · intro h
    have hd : decide (exprCount ≤ position) = true := decide_eq_true h
    simp [splitBoundaries, hd, splitRegions_suf_of_none]

/-- C6, witness: concrete first and last fragments with empty prefix and
suffix regions respectively. -/
theorem first_last_boundary_respect_witness :
    (splitBoundaries ['a'] 0 1).1 = [] ∧
    (splitBoundaries ['b'] 2 1).2.2 = [] :=
  ⟨(first_last_boundary_respect ['a'] 0 1).1 rfl,
   (first_last_boundary_respect ['b'] 2 1).2 (by decide)⟩

/-- C9: the core is total — the boundary split always partitions the
fragment exactly (so every slice `content[..f]`, `content[f..=l]`,
`content[l+1..]` is within bounds), and every index produced by the
whitespace searches points at an ASCII-whitespace character inside the
fragment (a one-byte character, hence a valid character boundary for the
Rust byte slicing). All model functions are structurally recursive Lean
definitions, so they terminate on every input. -/
theorem splitter_total_in_bounds (content : List Char)
    (position exprCount : Nat) :
    (splitBoundaries content position exprCount).1 ++
        (splitBoundaries content position exprCount).2.1 ++
        (splitBoundaries content position exprCount).2.2 = content ∧
    (∀ i, findWs content = some i →
      i < content.length ∧ isAsciiWhitespace (content.getD i 'A') = true) ∧
    (∀ i, rfindWs content = some i →
      i < content.length ∧ isAsciiWhitespace (content.getD i 'A') = true) :=
  ⟨splitBoundaries_partition content position exprCount,
   findWs_spec content, rfindWs_spec content⟩

/-- C9, witness: the whitespace searches on concrete fragments return
in-bounds indices of ASCII-whitespace characters. -/
theorem splitter_total_in_bounds_witness :
    (0 < 2 ∧ isAsciiWhitespace ([' ', 'a'].getD 0 'A') = true) ∧
    (1 < 2 ∧ isAsciiWhitespace (['a', ' '].getD 1 'A') = true) :=
  ⟨(splitter_total_in_bounds [' ', 'a'] 0 0).2.1 0 (by decide),
   (splitter_total_in_bounds ['a', ' '] 0 0).2.2 1 (by decide)⟩
